import Mathlib

/-!
Verification of the Hive Mind Central Hub task-distribution core.

The FastAPI endpoints of `main.py` are shallowly embedded as pure Lean
functions over an explicit database state `DB`.  Python strings are
modelled as lists of characters (`Str`), timestamps as natural numbers,
SQL `NULL` as `Option.none`.  Each endpoint becomes a function from its
request data and the current `DB` to either a new `DB` (plus response
data) or an error string, mirroring the SQLAlchemy queries and mutations
of the source line by line.  The SHA-256 password digest is modelled as
an abstract function parameter `hp : Str → Str` (its only relevant
property is that registration and login apply the same function).
-/

namespace Hive

/-- Python strings are modelled as lists of characters. -/
abbrev Str := List Char

def sPending : Str := "pending".data

def sClaimed : Str := "claimed".data

def sCompleted : Str := "completed".data

def sFailed : Str := "failed".data

def sOffline : Str := "offline".data

def sOnline : Str := "online".data

def sActive : Str := "active".data

def sExec : Str := "exec".data

def sComma : Str := ",".data

def eDupName : Str := "Agent name already exists".data

def eInvalidCred : Str := "Invalid credentials".data

def eTaskNotFound : Str := "Task not found".data

/-- Row of the `agents` table, with the columns `main.py` reads and writes
(`models.py`'s earlier integer-keyed revision is superseded by the
name-keyed fields used throughout `main.py`). -/
structure Agent where
  name : Str
  password_hash : Str
  status : Str
  last_seen : Option Nat
  capabilities : Str
  is_main_bot : Bool
  current_task : Option Str
deriving DecidableEq, Repr

/-- Row of the `tasks` table as read and written by `main.py`:
`assigned_to = none` is the broadcast sentinel (SQL `NULL`). -/
structure Task where
  id : Nat
  task_type : Str
  command : Str
  description : Option Str
  assigned_to : Option Str
  status : Str
  created_by : Option Str
  created_at : Option Nat
  completed_at : Option Nat
  completed_by : Option Str
  result : Option Str
  error : Option Str
  project_id : Option Nat
deriving DecidableEq, Repr

/-- Row of the `projects` table (`models.py`): the aggregate columns
`tasks_count` and `completed_count` default to `0`. -/
structure Project where
  id : Nat
  name : Str
  description : Str
  status : Str
  tasks_count : Nat
  completed_count : Nat
  created_by : Option Str
  created_at : Option Nat
deriving DecidableEq, Repr

/-- The persistent store: the three tables plus the autoincrement
counters for the two integer primary keys. -/
structure DB where
  agents : List Agent
  tasks : List Task
  projects : List Project
  next_task_id : Nat
  next_project_id : Nat
deriving DecidableEq, Repr

deriving instance DecidableEq for Except

def emptyDB : DB :=
  { agents := [], tasks := [], projects := [], next_task_id := 1, next_project_id := 1 }

/-- Status of the task with primary key `tid` (first row matching the
filter, as returned by `query(Task).filter(Task.id == task_id).first()`). -/
def statusOf (db : DB) (tid : Nat) : Option Str :=
  (db.tasks.find? (fun t => t.id == tid)).map Task.status

/-- The stored capability string: `",".join(capabilities) if capabilities else ""`
from `register_agent` in `main.py`. -/
def joinCaps (caps : List Str) : Str :=
  if caps ≠ [] then List.intercalate sComma caps else []

/-- The capability list returned by login:
`agent.capabilities.split(",") if agent.capabilities else []` from
`login_agent` in `main.py`. -/
def splitCaps (s : Str) : List Str :=
  if s ≠ [] then s.splitOn ',' else []

structure RegisterResp where
  agent_name : Str
  is_main_bot : Bool
deriving DecidableEq, Repr

/-- The agent row inserted by `register_agent` (main.py:243-249): non-admin,
status `offline`, comma-joined capability string; the `last_seen` column
takes its `datetime.utcnow` default at insert. -/
def mkRegAgent (hp : Str → Str) (nm pw : Str) (caps : List Str) (now : Nat) :
    Agent :=
  { name := nm, password_hash := hp pw, status := sOffline,
    last_seen := some now, capabilities := joinCaps caps,
    is_main_bot := false, current_task := none }

/-- `POST /agent/register` (`register_agent`, main.py:227-274): reject when a
row with the requested name already exists, otherwise insert a fresh
non-admin agent whose `capabilities` column is the comma-joined list. -/
def register_agent (hp : Str → Str) (nm pw : Str) (caps : List Str) (now : Nat)
    (db : DB) : Except Str (DB × RegisterResp) :=
  if (db.agents.find? (fun a => a.name == nm)).isSome then
    .error eDupName
  else
    .ok ({ db with agents := db.agents ++ [mkRegAgent hp nm pw caps now] },
         { agent_name := nm, is_main_bot := false })

structure LoginResp where
  agent_name : Str
  is_main_bot : Bool
  capabilities : List Str
deriving DecidableEq, Repr

/-- `POST /agent/login` (`login_agent`, main.py:276-306): look the agent up by
name, compare password hashes, stamp `last_seen`/`status`, and return the
capability list split back out of the stored string. -/
def login_agent (hp : Str → Str) (nm pw : Str) (now : Nat) (db : DB) :
    Except Str (DB × LoginResp) :=
  match db.agents.find? (fun a => a.name == nm) with
  | none => .error eInvalidCred
  | some agent =>
    if agent.password_hash ≠ hp pw then
      .error eInvalidCred
    else
      let db' := { db with agents := db.agents.map (fun a =>
        if a.name == nm then { a with last_seen := some now, status := sOnline } else a) }
      .ok (db', { agent_name := agent.name, is_main_bot := agent.is_main_bot,
                  capabilities := splitCaps agent.capabilities })

/-- `POST /agent/heartbeat` (`agent_heartbeat`, main.py:308-320): update the
agent's status and `last_seen`; `current_task` is only overwritten by a
truthy (non-empty) value. -/
def agent_heartbeat (nm : Str) (hstatus : Str) (hcur : Option Str) (now : Nat)
    (db : DB) : DB :=
  { db with agents := db.agents.map (fun a =>
      if a.name == nm then
        { a with status := hstatus, last_seen := some now,
                 current_task := match hcur with
                   | some c => if c ≠ [] then some c else a.current_task
                   | none => a.current_task }
      else a) }

/-- The projection of a task row serialized by `poll_tasks`. -/
structure PolledTask where
  id : Nat
  type : Str
  command : Str
  description : Option Str
  created_at : Option Nat
deriving DecidableEq, Repr

def Task.toPolled (t : Task) : PolledTask :=
  { id := t.id, type := t.task_type, command := t.command,
    description := t.description, created_at := t.created_at }

/-- `GET /agent/poll` (`poll_tasks`, main.py:322-350): two filtered SELECTs —
pending tasks assigned to the polling agent, then pending broadcast tasks
(`assigned_to IS NULL`) — concatenated and serialized.  The handler
performs no UPDATE: its type here is a pure function of the state. -/
def poll_tasks (agentName : Str) (db : DB) : List PolledTask :=
  let tasks := db.tasks.filter (fun t =>
    t.assigned_to == some agentName && t.status == sPending)
  let broadcast_tasks := db.tasks.filter (fun t =>
    t.assigned_to == none && t.status == sPending)
  (tasks ++ broadcast_tasks).map Task.toPolled

structure TaskResult where
  success : Bool
  result : Option Str
  error : Option Str
deriving DecidableEq, Repr

/-- `POST /agent/task/{task_id}/complete` (`complete_task`, main.py:352-371):
404 when the id is unknown; otherwise unconditionally overwrite status,
result, error, `completed_at` and `completed_by` — the handler checks
neither `assigned_to` nor the current status. -/
def complete_task (task_id : Nat) (agentName : Str) (r : TaskResult) (now : Nat)
    (db : DB) : Except Str DB :=
  match db.tasks.find? (fun t => t.id == task_id) with
  | none => .error eTaskNotFound
  | some _ =>
    .ok { db with tasks := db.tasks.map (fun t =>
      if t.id == task_id then
        { t with status := if r.success then sCompleted else sFailed,
                 result := r.result, error := r.error,
                 completed_at := some now, completed_by := some agentName }
      else t) }

structure TaskCreate where
  agent_name : Option Str
  task_type : Str
  command : Str
  description : Option Str
deriving DecidableEq, Repr

/-- `POST /admin/task/assign` (`assign_task`, main.py:398-420): insert a fresh
pending task; `agent_name = none` broadcasts it. -/
def assign_task (td : TaskCreate) (adminName : Str) (now : Nat) (db : DB) :
    DB × Nat :=
  let t : Task :=
    { id := db.next_task_id, task_type := td.task_type, command := td.command,
      description := td.description, assigned_to := td.agent_name,
      status := sPending, created_by := some adminName, created_at := some now,
      completed_at := none, completed_by := none, result := none, error := none,
      project_id := none }
  ({ db with tasks := db.tasks ++ [t], next_task_id := db.next_task_id + 1 }, t.id)

/-- One element of `ProjectCreate.tasks`: a Python dict read with `.get`. -/
structure ProjectTaskDict where
  type : Option Str
  command : Option Str
  description : Option Str
  agent_name : Option Str
deriving DecidableEq, Repr

structure ProjectCreate where
  name : Str
  description : Str
  tasks : List ProjectTaskDict
deriving DecidableEq, Repr

/-- The project row inserted by `create_project` (main.py:453-458):
`tasks_count` and `completed_count` take their column default `0`. -/
def mkProject (pd : ProjectCreate) (adminName : Str) (now : Nat) (pid : Nat) :
    Project :=
  { id := pid, name := pd.name, description := pd.description,
    status := sActive, tasks_count := 0, completed_count := 0,
    created_by := some adminName, created_at := some now }

/-- First half of `create_project` (main.py:453-461): the project row is
inserted and committed before any task is created. -/
def create_project_commit1 (pd : ProjectCreate) (adminName : Str) (now : Nat)
    (db : DB) : DB × Nat :=
  ({ db with projects := db.projects ++ [mkProject pd adminName now db.next_project_id],
             next_project_id := db.next_project_id + 1 }, db.next_project_id)

/-- The task row built from one dict of `project_data.tasks`
(main.py:465-473), with the `.get` defaults of the source. -/
def mkProjectTask (pid : Nat) (adminName : Str) (now : Nat)
    (td : ProjectTaskDict) (tid : Nat) : Task :=
  { id := tid, task_type := td.type.getD sExec,
    command := td.command.getD [], description := td.description,
    assigned_to := td.agent_name, status := sPending,
    created_by := some adminName, created_at := some now,
    completed_at := none, completed_by := none, result := none,
    error := none, project_id := some pid }

/-- Second half of `create_project` (main.py:463-476): each task dict becomes
a pending task with `project_id` set, committed together at the end. -/
def addProjectTasks (pid : Nat) (adminName : Str) (now : Nat)
    (tds : List ProjectTaskDict) (db : DB) : DB :=
  tds.foldl (fun d td =>
    { d with tasks := d.tasks ++ [mkProjectTask pid adminName now td d.next_task_id],
             next_task_id := d.next_task_id + 1 }) db

/-- `POST /admin/project/create` (`create_project`, main.py:446-482), end to
end: commit the project row, then insert and commit the initial tasks. -/
def create_project (pd : ProjectCreate) (adminName : Str) (now : Nat) (db : DB) :
    DB × Nat :=
  let r := create_project_commit1 pd adminName now db
  (addProjectTasks r.2 adminName now pd.tasks r.1, r.2)

/-- The sequence of committed (durable, observable) states produced by one
`create_project` call: `db.commit()` at main.py:460 then main.py:476. -/
def create_project_commits (pd : ProjectCreate) (adminName : Str) (now : Nat)
    (db : DB) : List DB :=
  let r := create_project_commit1 pd adminName now db
  [r.1, addProjectTasks r.2 adminName now pd.tasks r.1]

/-! ### Concrete states used to evaluate the endpoints -/

def nmA : Str := "agent_a".data

def nmB : Str := "agent_b".data

def nmAdmin : Str := "main_bot".data

def agentA : Agent :=
  { name := nmA, password_hash := "pwa".data, status := sOnline,
    last_seen := some 0, capabilities := [], is_main_bot := false,
    current_task := none }

def agentB : Agent :=
  { name := nmB, password_hash := "pwb".data, status := sOnline,
    last_seen := some 0, capabilities := [], is_main_bot := false,
    current_task := none }

/-- A broadcast task (`assigned_to = NULL`) sitting in `pending`. -/
def bTask1 : Task :=
  { id := 1, task_type := sExec, command := "ping".data, description := none,
    assigned_to := none, status := sPending, created_by := some nmAdmin,
    created_at := some 0, completed_at := none, completed_by := none,
    result := none, error := none, project_id := none }

def exDB1 : DB :=
  { agents := [agentA, agentB], tasks := [bTask1], projects := [],
    next_task_id := 2, next_project_id := 1 }

/-- A task pinned to `agent_a`, still `pending`. -/
def aTask1 : Task :=
  { bTask1 with assigned_to := some nmA }

def exDB2 : DB :=
  { exDB1 with tasks := [aTask1] }

/-- A task held by `agent_a` in the spec's `claimed` status. -/
def cTask1 : Task :=
  { bTask1 with assigned_to := some nmA, status := sClaimed }

def exDB3 : DB :=
  { exDB1 with tasks := [cTask1] }

def rOk : TaskResult := { success := true, result := some "out".data, error := none }

def rFail : TaskResult := { success := false, result := none, error := some "boom".data }

def cTask1done : Task :=
  { cTask1 with
    status := sCompleted, result := some "out".data, error := none,
    completed_at := some 5, completed_by := some nmB }

/-- The state `complete_task 1 agent_b rOk 5` produces from `exDB3`. -/
def exDB3done : DB :=
  { exDB3 with tasks := [cTask1done] }

def exDB5 : DB := exDB2

def aTask1c1 : Task :=
  { aTask1 with
    status := sCompleted, result := some "out".data, error := none,
    completed_at := some 10, completed_by := some nmA }

def aTask1c2 : Task :=
  { aTask1 with
    status := sFailed, result := none, error := some "boom".data,
    completed_at := some 20, completed_by := some nmA }

def exDB5c1 : DB :=
  { exDB5 with tasks := [aTask1c1] }

def exDB5c2 : DB :=
  { exDB5 with tasks := [aTask1c2] }

/-- A two-task project creation request. -/
def pd2 : ProjectCreate :=
  { name := "P".data, description := "desc".data,
    tasks := [ { type := some sExec, command := some "t1".data, description := none,
                 agent_name := none },
               { type := some sExec, command := some "t2".data, description := none,
                 agent_name := none } ] }

/-! ### Claim theorems: delivery, claiming, completion (C1, C2, C3, C5, C7) -/

/-- Claim C1: the claim fails on the code.  `poll_tasks` is a pure read —
it never marks a task claimed — so the single pending broadcast task
(id 1) is delivered both to `agent_a` and, with the store necessarily
unchanged after that first poll, to `agent_b` as well. -/
theorem c1_broadcast_double_delivery :
    (poll_tasks nmA exDB1).map PolledTask.id = [1] ∧
    (poll_tasks nmB exDB1).map PolledTask.id = [1] ∧
    statusOf exDB1 1 = some sPending := by
  decide

/-- Claim C2: the claim fails on the code.  `poll_tasks` returns the pinned
pending task (id 1) to `agent_a`, yet performs no write at all: the state
after the call is `exDB2` itself, in which the returned task is still
`pending` and its `assigned_to` is unchanged. -/
theorem c2_poll_does_not_claim :
    (poll_tasks nmA exDB2).map PolledTask.id = [1] ∧
    statusOf exDB2 1 = some sPending ∧
    (exDB2.tasks.map Task.assigned_to) = [some nmA] := by
  decide

/-- Claim C3: the claim fails on the code.  Task 1 is held by `agent_a`
(status `claimed`), yet `complete_task` called by `agent_b` succeeds —
the handler checks only existence — recording `completed_by = agent_b`
instead of failing with `NotOwner` and leaving the row unchanged. -/
theorem c3_no_ownership_check :
    complete_task 1 nmB rOk 5 exDB3 = .ok exDB3done ∧
    exDB3.tasks.map Task.assigned_to = [some nmA] ∧
    exDB3.tasks.map Task.status = [sClaimed] ∧
    exDB3done.tasks.map Task.status = [sCompleted] ∧
    exDB3done.tasks.map Task.completed_by = [some nmB] ∧
    nmA ≠ nmB := by
  decide

/-- Claim C5: the claim fails on the code.  After `agent_a` completes task 1
(`completed`, `completed_at = 10`), a second `complete_task` by the same
agent succeeds again and overwrites the first record: status flips to
`failed` and `completed_at` moves to `20`. -/
theorem c5_second_completion_overwrites :
    complete_task 1 nmA rOk 10 exDB5 = .ok exDB5c1 ∧
    complete_task 1 nmA rFail 20 exDB5c1 = .ok exDB5c2 ∧
    exDB5c1.tasks.map Task.status = [sCompleted] ∧
    exDB5c1.tasks.map Task.completed_at = [some 10] ∧
    exDB5c2.tasks.map Task.status = [sFailed] ∧
    exDB5c2.tasks.map Task.completed_at = [some 20] := by
  decide

/-- Claim C7: the claim fails on the code.  `create_project` commits twice
(main.py:460 and main.py:476); the first committed — hence observable and
durable — state already contains project 1 while none of its two initial
tasks exist yet. -/
theorem c7_project_commit_not_atomic :
    (create_project_commits pd2 nmAdmin 0 emptyDB).head? =
      some (create_project_commit1 pd2 nmAdmin 0 emptyDB).1 ∧
    ((create_project_commit1 pd2 nmAdmin 0 emptyDB).1.projects.map Project.id = [1]) ∧
    ((create_project_commit1 pd2 nmAdmin 0 emptyDB).1.tasks.filter
        (fun t => t.project_id == some 1)) = [] ∧
    pd2.tasks.length = 2 ∧
    ((create_project pd2 nmAdmin 0 emptyDB).1.tasks.filter
        (fun t => t.project_id == some 1)).length = 2 := by
  decide

/-- Claim C8, counterexample: after creating project 1 with two initial
tasks, the stored aggregate `tasks_count` is still `0` while two tasks
with `project_id = 1` exist — the stored aggregates do not equal the
recomputed counts. -/
theorem c8_stale_task_count :
    ((create_project pd2 nmAdmin 0 emptyDB).1.projects.map Project.tasks_count = [0]) ∧
    ((create_project pd2 nmAdmin 0 emptyDB).1.tasks.filter
        (fun t => t.project_id == some 1)).length = 2 := by
  decide

/-! ### Operation sequences

`Op` packages one call to any state-mutating endpoint of `main.py`;
`Op.apply` runs it, an erroring call leaving the store unchanged (the
handler raises before — or instead of — committing). -/

inductive Op where
  | register (nm pw : Str) (caps : List Str) (now : Nat)
  | login (nm pw : Str) (now : Nat)
  | heartbeat (nm st : Str) (cur : Option Str) (now : Nat)
  | poll (nm : Str)
  | complete (tid : Nat) (nm : Str) (r : TaskResult) (now : Nat)
  | assign (td : TaskCreate) (adminName : Str) (now : Nat)
  | projectCreate (pd : ProjectCreate) (adminName : Str) (now : Nat)
deriving DecidableEq, Repr

def Op.apply (hp : Str → Str) (op : Op) (db : DB) : DB :=
  match op with
  | .register nm pw caps now =>
    match register_agent hp nm pw caps now db with
    | .ok r => r.1
    | .error _ => db
  | .login nm pw now =>
    match login_agent hp nm pw now db with
    | .ok r => r.1
    | .error _ => db
  | .heartbeat nm st cur now => agent_heartbeat nm st cur now db
  | .poll _ => db
  | .complete tid nm r now =>
    match complete_task tid nm r now db with
    | .ok db' => db'
    | .error _ => db
  | .assign td adminName now => (assign_task td adminName now db).1
  | .projectCreate pd adminName now => (create_project pd adminName now db).1

def applyOps (hp : Str → Str) (ops : List Op) (db : DB) : DB :=
  ops.foldl (fun d o => Op.apply hp o d) db

def idHash : Str → Str := fun s => s

/-! ### How each operation can touch the `tasks` table -/

theorem find?_map_id (g : Task → Task) (hg : ∀ t, (g t).id = t.id)
    (l : List Task) (tid : Nat) :
    (l.map g).find? (fun t => t.id == tid) = (l.find? (fun t => t.id == tid)).map g := by
  rw [List.find?_map]
  have h : ((fun t : Task => t.id == tid) ∘ g) = fun t : Task => t.id == tid := by
    funext t
    simp [Function.comp, hg t]
  rw [h]

theorem addProjectTasks_append (pid : Nat) (adminName : Str) (now : Nat)
    (tds : List ProjectTaskDict) (db : DB) :
    ∃ ts : List Task, (∀ t ∈ ts, t.status = sPending) ∧
      (addProjectTasks pid adminName now tds db).tasks = db.tasks ++ ts := by
  induction tds generalizing db with
  | nil => exact ⟨[], by simp, by simp [addProjectTasks]⟩
  | cons td tds ih =>
    obtain ⟨ts, h1, h2⟩ := ih
      { db with
        tasks := db.tasks ++ [mkProjectTask pid adminName now td db.next_task_id],
        next_task_id := db.next_task_id + 1 }
    refine ⟨mkProjectTask pid adminName now td db.next_task_id :: ts, ?_, ?_⟩
    · intro t ht
      rcases List.mem_cons.mp ht with h | h
      · rw [h]; rfl
      · exact h1 t h
    · rw [show addProjectTasks pid adminName now (td :: tds) db =
        addProjectTasks pid adminName now tds
          { db with
            tasks := db.tasks ++ [mkProjectTask pid adminName now td db.next_task_id],
            next_task_id := db.next_task_id + 1 } from rfl, h2]
      simp

theorem addProjectTasks_projects (pid : Nat) (adminName : Str) (now : Nat)
    (tds : List ProjectTaskDict) (db : DB) :
    (addProjectTasks pid adminName now tds db).projects = db.projects := by
  induction tds generalizing db with
  | nil => rfl
  | cons td tds ih => exact ih _

/-- Every endpoint either leaves the `tasks` table unchanged, rewrites rows
in place preserving ids and moving a status only to `completed`/`failed`
(`complete_task`), or appends fresh `pending` rows (`assign_task`,
`create_project`). -/
theorem apply_tasks_characterization (hp : Str → Str) (op : Op) (db : DB) :
    (Op.apply hp op db).tasks = db.tasks ∨
    (∃ g : Task → Task, (∀ t, (g t).id = t.id) ∧
      (∀ t, (g t).status = t.status ∨ (g t).status = sCompleted ∨ (g t).status = sFailed) ∧
      (Op.apply hp op db).tasks = db.tasks.map g) ∨
    (∃ ts : List Task, (∀ t ∈ ts, t.status = sPending) ∧
      (Op.apply hp op db).tasks = db.tasks ++ ts) := by
  cases op with
  | register nm pw caps now =>
    left
    cases h : (db.agents.find? (fun a => a.name == nm)).isSome <;>
      simp [Op.apply, register_agent, h]
  | login nm pw now =>
    left
    cases h : db.agents.find? (fun a => a.name == nm) with
    | none => simp [Op.apply, login_agent, h]
    | some a =>
      by_cases hpw : a.password_hash = hp pw <;>
        simp [Op.apply, login_agent, h, hpw]
  | heartbeat nm st cur now => left; rfl
  | poll nm => left; rfl
  | complete tid nm r now =>
    cases h : db.tasks.find? (fun t => t.id == tid) with
    | none => left; simp [Op.apply, complete_task, h]
    | some t0 =>
      right; left
      refine ⟨fun t => if t.id == tid then
        { t with status := if r.success then sCompleted else sFailed,
                 result := r.result, error := r.error,
                 completed_at := some now, completed_by := some nm }
        else t, ?_, ?_, ?_⟩
      · intro t
        by_cases ht : t.id = tid <;> simp [ht]
      · intro t
        by_cases ht : t.id = tid
        · right
          cases r.success <;> simp [ht]
        · left
          simp [ht]
      · simp [Op.apply, complete_task, h]
  | assign td adminName now =>
    right; right
    exact ⟨[_], by intro t ht; rw [List.mem_singleton.mp ht], rfl⟩
  | projectCreate pd adminName now =>
    right; right
    obtain ⟨ts, h1, h2⟩ := addProjectTasks_append db.next_project_id adminName now
      pd.tasks
      { db with
        projects := db.projects ++ [mkProject pd adminName now db.next_project_id],
        next_project_id := db.next_project_id + 1 }
    exact ⟨ts, h1, h2⟩

/-- Every endpoint either leaves the `projects` table unchanged or appends
one project whose stored aggregates are the column defaults `0`
(`create_project`): no operation ever updates `tasks_count` or
`completed_count`. -/
theorem apply_projects_characterization (hp : Str → Str) (op : Op) (db : DB) :
    (Op.apply hp op db).projects = db.projects ∨
    ∃ p : Project, p.tasks_count = 0 ∧ p.completed_count = 0 ∧
      (Op.apply hp op db).projects = db.projects ++ [p] := by
  cases op with
  | register nm pw caps now =>
    left
    cases h : (db.agents.find? (fun a => a.name == nm)).isSome <;>
      simp [Op.apply, register_agent, h]
  | login nm pw now =>
    left
    cases h : db.agents.find? (fun a => a.name == nm) with
    | none => simp [Op.apply, login_agent, h]
    | some a =>
      by_cases hpw : a.password_hash = hp pw <;>
        simp [Op.apply, login_agent, h, hpw]
  | heartbeat nm st cur now => left; rfl
  | poll nm => left; rfl
  | complete tid nm r now =>
    left
    cases h : db.tasks.find? (fun t => t.id == tid) <;>
      simp [Op.apply, complete_task, h]
  | assign td adminName now => left; rfl
  | projectCreate pd adminName now =>
    right
    refine ⟨mkProject pd adminName now db.next_project_id, rfl, rfl, ?_⟩
    have h : Op.apply hp (Op.projectCreate pd adminName now) db =
        addProjectTasks (create_project_commit1 pd adminName now db).2 adminName now
          pd.tasks (create_project_commit1 pd adminName now db).1 := rfl
    rw [h, addProjectTasks_projects]
    rfl


/-! ### Status lifecycle over operation sequences (C4, C8) -/

theorem statusOf_congr (db db2 : DB) (tid : Nat) (h : db2.tasks = db.tasks) :
    statusOf db2 tid = statusOf db tid := by
  simp [statusOf, h]

theorem statusOf_apply_done (hp : Str → Str) (op : Op) (db : DB) (tid : Nat)
    (h : statusOf db tid = some sCompleted ∨ statusOf db tid = some sFailed) :
    statusOf (Op.apply hp op db) tid = some sCompleted ∨
    statusOf (Op.apply hp op db) tid = some sFailed := by
  rcases apply_tasks_characterization hp op db with heq | ⟨g, hg, hst, heq⟩ | ⟨ts, hts, heq⟩
  · rw [statusOf_congr db (Op.apply hp op db) tid heq]
    exact h
  · cases hf : db.tasks.find? (fun t => t.id == tid) with
    | none => simp [statusOf, hf] at h
    | some t0 =>
      have ht0 : statusOf db tid = some t0.status := by simp [statusOf, hf]
      have hdone : t0.status = sCompleted ∨ t0.status = sFailed := by
        rw [ht0] at h
        rcases h with h | h
        · exact Or.inl (Option.some.inj h)
        · exact Or.inr (Option.some.inj h)
      have hs : statusOf (Op.apply hp op db) tid = some (Task.status (g t0)) := by
        simp [statusOf, heq, find?_map_id g hg, hf]
      rcases hst t0 with h1 | h1 | h1
      · rw [hs, h1]
        rcases hdone with h2 | h2
        · exact Or.inl (by rw [h2])
        · exact Or.inr (by rw [h2])
      · exact Or.inl (by rw [hs, h1])
      · exact Or.inr (by rw [hs, h1])
  · cases hf : db.tasks.find? (fun t => t.id == tid) with
    | none => simp [statusOf, hf] at h
    | some t0 =>
      have hsame : statusOf (Op.apply hp op db) tid = statusOf db tid := by
        simp [statusOf, heq, List.find?_append, hf, Option.or]
      rwa [hsame]

theorem statusOf_apply_pending (hp : Str → Str) (op : Op) (db : DB) (tid : Nat)
    (h : statusOf (Op.apply hp op db) tid = some sPending) :
    statusOf db tid = some sPending ∨ statusOf db tid = none := by
  rcases apply_tasks_characterization hp op db with heq | ⟨g, hg, hst, heq⟩ | ⟨ts, hts, heq⟩
  · rw [statusOf_congr db (Op.apply hp op db) tid heq] at h
    exact Or.inl h
  · cases hf : db.tasks.find? (fun t => t.id == tid) with
    | none =>
      right
      simp [statusOf, hf]
    | some t0 =>
      have hs : statusOf (Op.apply hp op db) tid = some (Task.status (g t0)) := by
        simp [statusOf, heq, find?_map_id g hg, hf]
      rw [hs] at h
      have hgt : Task.status (g t0) = sPending := Option.some.inj h
      rcases hst t0 with h1 | h1 | h1
      · left
        have : t0.status = sPending := by rw [← h1, hgt]
        simp [statusOf, hf, this]
      · exact absurd (h1 ▸ hgt) (by decide)
      · exact absurd (h1 ▸ hgt) (by decide)
  · cases hf : db.tasks.find? (fun t => t.id == tid) with
    | none =>
      right
      simp [statusOf, hf]
    | some t0 =>
      left
      have hsame : statusOf (Op.apply hp op db) tid = statusOf db tid := by
        simp [statusOf, heq, List.find?_append, hf, Option.or]
      rwa [hsame] at h

theorem statusOf_apply_none (hp : Str → Str) (op : Op) (db : DB) (tid : Nat)
    (h : statusOf (Op.apply hp op db) tid = none) : statusOf db tid = none := by
  rcases apply_tasks_characterization hp op db with heq | ⟨g, hg, hst, heq⟩ | ⟨ts, hts, heq⟩
  · rwa [statusOf_congr db (Op.apply hp op db) tid heq] at h
  · cases hf : db.tasks.find? (fun t => t.id == tid) with
    | none => simp [statusOf, hf]
    | some t0 =>
      have hs : statusOf (Op.apply hp op db) tid = some (Task.status (g t0)) := by
        simp [statusOf, heq, find?_map_id g hg, hf]
      rw [hs] at h
      exact absurd h (by simp)
  · cases hf : db.tasks.find? (fun t => t.id == tid) with
    | none => simp [statusOf, hf]
    | some t0 =>
      have hsame : statusOf (Op.apply hp op db) tid = statusOf db tid := by
        simp [statusOf, heq, List.find?_append, hf, Option.or]
      rw [hsame] at h
      exact absurd h (by simp [statusOf, hf])

/-- Claim C4: status transitions are monotonic in the elaborated sense.  For
every sequence of endpoint calls: a task whose status has reached
`completed` or `failed` never returns to `pending` or `claimed` (its
status stays in `{completed, failed}`), and a task that is `pending`
after the sequence was already `pending` beforehand or did not exist yet
(it was created `pending` mid-sequence) — no operation ever moves an
existing task back to `pending`; the code contains no `reassignStale`,
so no transition into `pending` occurs at all. -/
theorem c4_status_monotonic (hp : Str → Str) (ops : List Op) (db : DB) (tid : Nat) :
    ((statusOf db tid = some sCompleted ∨ statusOf db tid = some sFailed) →
      (statusOf (applyOps hp ops db) tid = some sCompleted ∨
       statusOf (applyOps hp ops db) tid = some sFailed)) ∧
    (statusOf (applyOps hp ops db) tid = some sPending →
      (statusOf db tid = some sPending ∨ statusOf db tid = none)) := by
  induction ops generalizing db with
  | nil => exact ⟨fun h => h, fun h => Or.inl h⟩
  | cons op ops ih =>
    have hstep : applyOps hp (op :: ops) db = applyOps hp ops (Op.apply hp op db) := rfl
    constructor
    · intro h
      rw [hstep]
      exact (ih (Op.apply hp op db)).1 (statusOf_apply_done hp op db tid h)
    · intro h
      rw [hstep] at h
      rcases (ih (Op.apply hp op db)).2 h with h2 | h2
      · exact statusOf_apply_pending hp op db tid h2
      · exact Or.inr (statusOf_apply_none hp op db tid h2)

def tc1 : TaskCreate :=
  { agent_name := some nmA, task_type := sExec, command := "c1".data,
    description := none }

def ops4 : List Op :=
  [Op.poll nmA, Op.assign tc1 nmAdmin 7, Op.complete 1 nmB rFail 9]

theorem c4_status_monotonic_witness :
    statusOf (applyOps idHash ops4 exDB5c1) 1 = some sCompleted ∨
    statusOf (applyOps idHash ops4 exDB5c1) 1 = some sFailed :=
  (c4_status_monotonic idHash ops4 exDB5c1 1).1 (Or.inl (by decide))

/-- Claim C8 (amended): the stored aggregate columns are never maintained.
Starting from any store whose projects all carry the column defaults
`tasks_count = completed_count = 0`, every sequence of endpoint calls —
including `create_project` with a non-empty initial task list and any
number of task completions — leaves every project's stored `tasks_count`
and `completed_count` equal to `0`; the actual counts are recoverable
only by recomputing over the tasks table (cf. `c8_stale_task_count`). -/
theorem c8_aggregates_constant (hp : Str → Str) (ops : List Op) (db : DB)
    (h : db.projects.all (fun p => p.tasks_count == 0 && p.completed_count == 0) = true) :
    (applyOps hp ops db).projects.all
      (fun p => p.tasks_count == 0 && p.completed_count == 0) = true := by
  induction ops generalizing db with
  | nil => exact h
  | cons op ops ih =>
    refine ih (Op.apply hp op db) ?_
    rcases apply_projects_characterization hp op db with heq | ⟨p, h1, h2, heq⟩
    · rw [heq]
      exact h
    · rw [heq, List.all_append]
      simp [h, h1, h2]

def ops8 : List Op :=
  [Op.projectCreate pd2 nmAdmin 0, Op.complete 1 nmA rOk 3]

theorem c8_aggregates_constant_witness :
    (applyOps idHash ops8 emptyDB).projects.all
      (fun p => p.tasks_count == 0 && p.completed_count == 0) = true :=
  c8_aggregates_constant idHash ops8 emptyDB (by decide)


/-! ### Registration and capability round-trip (C9, C10) -/

/-- Claim C9: `register_agent` fails with the duplicate-name error, leaving
the store untouched, exactly when an agent with the (case-sensitively)
identical name already exists; otherwise it inserts one new non-admin
agent under the requested name. -/
theorem c9_register_exact_duplicate (hp : Str → Str) (nm pw : Str)
    (caps : List Str) (now : Nat) (db : DB) :
    match register_agent hp nm pw caps now db with
    | .error e => e = eDupName ∧ (∃ a ∈ db.agents, a.name = nm) ∧
        Op.apply hp (Op.register nm pw caps now) db = db
    | .ok x => (∀ a ∈ db.agents, a.name ≠ nm) ∧
        x.2.agent_name = nm ∧ x.2.is_main_bot = false ∧
        (mkRegAgent hp nm pw caps now).name = nm ∧
        (mkRegAgent hp nm pw caps now).is_main_bot = false ∧
        x.1 = { db with agents := db.agents ++ [mkRegAgent hp nm pw caps now] } := by
  cases h : (db.agents.find? (fun a => a.name == nm)).isSome with
  | true =>
    have hreg : register_agent hp nm pw caps now db = .error eDupName := by
      simp [register_agent, h]
    rw [hreg]
    refine ⟨rfl, ?_, ?_⟩
    · obtain ⟨a, ha, hb⟩ := List.find?_isSome.mp h
      exact ⟨a, ha, by simpa using hb⟩
    · simp [Op.apply, register_agent, h]
  | false =>
    have hreg : register_agent hp nm pw caps now db =
        .ok ({ db with agents := db.agents ++ [mkRegAgent hp nm pw caps now] },
             { agent_name := nm, is_main_bot := false }) := by
      simp [register_agent, h]
    rw [hreg]
    refine ⟨?_, rfl, rfl, rfl, rfl, rfl⟩
    intro a ha hne
    have hs : (db.agents.find? (fun a => a.name == nm)).isSome = true :=
      List.find?_isSome.mpr ⟨a, ha, by simp [hne]⟩
    rw [h] at hs
    cases hs

theorem intercalate_comma_head (c : Str) (cs : List Str) :
    ∃ rest, List.intercalate sComma (c :: cs) = c ++ rest := by
  have hcomma : sComma = [','] := rfl
  rw [hcomma]
  cases cs with
  | nil => exact ⟨[], by simp [List.intercalate]⟩
  | cons d ds =>
    exact ⟨',' :: List.intercalate [','] (d :: ds),
      by simp [List.intercalate, List.intersperse]⟩

theorem joinCaps_ne_nil (caps : List Str) (h : ∀ c ∈ caps, c ≠ [] ∧ ',' ∉ c)
    (hne : caps ≠ []) : joinCaps caps ≠ [] := by
  cases caps with
  | nil => exact absurd rfl hne
  | cons c cs =>
    obtain ⟨rest, hr⟩ := intercalate_comma_head c cs
    have hj : joinCaps (c :: cs) = c ++ rest := by simp [joinCaps, hr]
    rw [hj]
    intro hq
    exact (h c (List.mem_cons_self c cs)).1 (List.append_eq_nil.mp hq).1

/-- Splitting on commas is a left inverse of comma-joining for lists of
non-empty, comma-free capability strings (and for the empty list). -/
theorem splitCaps_joinCaps (caps : List Str)
    (h : ∀ c ∈ caps, c ≠ [] ∧ ',' ∉ c) : splitCaps (joinCaps caps) = caps := by
  cases caps with
  | nil => simp [joinCaps, splitCaps]
  | cons c cs =>
    have hne := joinCaps_ne_nil (c :: cs) h (List.cons_ne_nil c cs)
    have hcomma : sComma = [','] := rfl
    have hj : joinCaps (c :: cs) = List.intercalate [','] (c :: cs) := by
      simp [joinCaps, hcomma]
    have hsplit : splitCaps (joinCaps (c :: cs)) = (joinCaps (c :: cs)).splitOn ',' := by
      simp [splitCaps, hne]
    rw [hsplit, hj]
    exact List.splitOn_intercalate (c :: cs) ',' (fun l hl => (h l hl).2)
      (List.cons_ne_nil c cs)

/-- The capability list of a login response, `none` on a failed login. -/
def loginCaps (res : Except Str (DB × LoginResp)) : Option (List Str) :=
  match res with
  | .ok x => some x.2.capabilities
  | .error _ => none

/-- Claim C10: capabilities round-trip.  If registering `nm` with a list of
non-empty, comma-free capability strings succeeds, then a subsequent
login for `nm` with the same password succeeds and returns exactly that
list (the empty list registers as the empty string and logs back in as
the empty list). -/
theorem c10_capabilities_roundtrip (hp : Str → Str) (nm pw : Str)
    (caps : List Str) (now now2 : Nat) (db db2 : DB) (r : RegisterResp)
    (hcaps : ∀ c ∈ caps, c ≠ [] ∧ ',' ∉ c)
    (hreg : register_agent hp nm pw caps now db = .ok (db2, r)) :
    loginCaps (login_agent hp nm pw now2 db2) = some caps := by
  cases h : (db.agents.find? (fun a => a.name == nm)).isSome with
  | true => simp [register_agent, h] at hreg
  | false =>
    have hok : register_agent hp nm pw caps now db =
        .ok ({ db with agents := db.agents ++ [mkRegAgent hp nm pw caps now] },
             { agent_name := nm, is_main_bot := false }) := by
      simp [register_agent, h]
    rw [hok] at hreg
    have hpair := Except.ok.inj hreg
    have hdb2 : db2 = { db with agents := db.agents ++ [mkRegAgent hp nm pw caps now] } :=
      (congrArg Prod.fst hpair).symm
    subst hdb2
    have hnone : db.agents.find? (fun a => a.name == nm) = none := by
      cases hf : db.agents.find? (fun a => a.name == nm) with
      | none => rfl
      | some a =>
        rw [hf] at h
        cases h
    have hfind : (db.agents ++ [mkRegAgent hp nm pw caps now]).find?
        (fun a => a.name == nm) = some (mkRegAgent hp nm pw caps now) := by
      rw [List.find?_append, hnone]
      simp [List.find?, mkRegAgent]
    simp only [login_agent, loginCaps]
    rw [hfind]
    simp [mkRegAgent, splitCaps_joinCaps caps hcaps]

def pwA : Str := "pw_a".data

def nmC : Str := "agent_c".data

def capsAB : List Str := ["alpha".data, "beta".data]

def dbRegC : DB :=
  { emptyDB with agents := [mkRegAgent idHash nmC pwA capsAB 0] }

def respRegC : RegisterResp := { agent_name := nmC, is_main_bot := false }

theorem c10_capabilities_roundtrip_witness :
    loginCaps (login_agent idHash nmC pwA 9 dbRegC) = some capsAB :=
  c10_capabilities_roundtrip idHash nmC pwA capsAB 0 9 emptyDB dbRegC respRegC
    (by decide) (by decide)


/-! ### The spec's Work Queue claim protocol (C6)

`reassignStale` — and the claim machinery it presupposes (a `claimed`
status, `assignedTo` recording the claiming agent, the original-target
policy) — appears nowhere in `src/`: the code's poll handler never claims
and no endpoint reverts a task to pending.  The `WQ` model below is
therefore built from the specification text alone (§4.2 and the
tie-break/re-stranding policy) and claim C6 is settled against it. -/

namespace WQ

/-- Modelled from the spec: task status domain
`{pending, claimed, completed, failed}` of §3. -/
inductive TStatus where
  | pending
  | claimed
  | completed
  | failed
deriving DecidableEq, Repr

/-- Modelled from the spec: a Work Queue task; `assignedTo = none` is the
broadcast sentinel, and `originallyBroadcast` records whether the task was
created broadcast (the re-stranding policy of §4.2 distinguishes
originally-broadcast tasks from originally-pinned ones). -/
structure WTask where
  id : Nat
  assignedTo : Option Str
  originallyBroadcast : Bool
  status : TStatus
deriving DecidableEq, Repr

/-- Modelled from the spec: the slice of an agent record the Liveness
Monitor consults — its name and `lastSeenAt` timestamp. -/
structure WAgent where
  name : Str
  lastSeenAt : Nat
deriving DecidableEq, Repr

/-- Modelled from the spec: the Work Queue state — agent liveness records
and task records. -/
structure State where
  agents : List WAgent
  tasks : List WTask
deriving DecidableEq, Repr

def lastSeenOf (s : State) (nm : Str) : Option Nat :=
  (s.agents.find? (fun a => a.name == nm)).map WAgent.lastSeenAt

def taskOf (s : State) (tid : Nat) : Option WTask :=
  s.tasks.find? (fun t => t.id == tid)

/-- Modelled from the spec: a task is a stale claim when `status = claimed`
and the owning agent's `lastSeenAt < staleBefore` (§4.2 `reassignStale`). -/
def staleClaimed (s : State) (staleBefore : Nat) (t : WTask) : Bool :=
  t.status == TStatus.claimed &&
    (match t.assignedTo with
     | some nm =>
       match lastSeenOf s nm with
       | some ls => decide (ls < staleBefore)
       | none => false
     | none => false)

/-- Modelled from the spec: `reassignStale(staleBefore)` of §4.2 — every
stale claimed task reverts to `pending`; an originally-broadcast task
returns to the broadcast sentinel, an originally-pinned task stays pinned
to its agent (re-stranding policy). -/
def reassignStale (staleBefore : Nat) (s : State) : State :=
  { s with tasks := s.tasks.map (fun t =>
      if staleClaimed s staleBefore t then
        { t with status := TStatus.pending,
                 assignedTo := if t.originallyBroadcast then none else t.assignedTo }
      else t) }

/-- Modelled from the spec: the selection predicate of `pollAndClaim` —
pending tasks assigned to the polling agent or pending broadcast tasks. -/
def pollSelect (nm : Str) (t : WTask) : Bool :=
  t.status == TStatus.pending && (t.assignedTo == some nm || t.assignedTo == none)

/-- Modelled from the spec: `pollAndClaim(agentName)` of §4.2 as one atomic
transaction — every selected task transitions to `claimed` with
`assignedTo = agentName`, and the ids of the selected tasks are
delivered. -/
def pollAndClaim (nm : Str) (s : State) : State × List Nat :=
  ({ s with tasks := s.tasks.map (fun t =>
      if pollSelect nm t then
        { t with status := TStatus.claimed, assignedTo := some nm }
      else t) },
   (s.tasks.filter (pollSelect nm)).map WTask.id)

theorem find?_map_wtask (g : WTask → WTask) (hg : ∀ t, (g t).id = t.id)
    (l : List WTask) (tid : Nat) :
    (l.map g).find? (fun t => t.id == tid) = (l.find? (fun t => t.id == tid)).map g := by
  rw [List.find?_map]
  have h : ((fun t : WTask => t.id == tid) ∘ g) = fun t : WTask => t.id == tid := by
    funext t
    simp [Function.comp, hg t]
  rw [h]

end WQ

/-- Claim C6 (settled against the spec-modelled Work Queue): `reassignStale`
reverts every `claimed` task whose owning agent `A` has
`lastSeenAt < staleBefore` back to `pending`, with `assignedTo` reset to
the broadcast sentinel when the task was originally broadcast and kept
pinned to its original agent otherwise; and for an originally-broadcast
task a subsequent `pollAndClaim` by any agent `B` delivers `tid` and
claims it for `B`. -/
theorem c6_reassign_stale_reclaims (s : WQ.State) (tid : Nat) (t : WQ.WTask)
    (A B : Str) (la staleBefore : Nat)
    (ht : WQ.taskOf s tid = some t) (hst : t.status = WQ.TStatus.claimed)
    (hA : t.assignedTo = some A)
    (hls : WQ.lastSeenOf s A = some la) (hlt : la < staleBefore) :
    WQ.taskOf (WQ.reassignStale staleBefore s) tid =
      some { t with status := WQ.TStatus.pending,
                    assignedTo := if t.originallyBroadcast then none else t.assignedTo } ∧
    (t.originallyBroadcast = true →
      tid ∈ (WQ.pollAndClaim B (WQ.reassignStale staleBefore s)).2 ∧
      WQ.taskOf (WQ.pollAndClaim B (WQ.reassignStale staleBefore s)).1 tid =
        some { t with status := WQ.TStatus.claimed, assignedTo := some B }) := by
  have htid : t.id = tid := by simpa using List.find?_some ht
  have hmem : t ∈ s.tasks := List.mem_of_find?_eq_some ht
  have hstale : WQ.staleClaimed s staleBefore t = true := by
    simp [WQ.staleClaimed, hst, hA, hls, hlt]
  have hg1 : ∀ u : WQ.WTask,
      ((if WQ.staleClaimed s staleBefore u then
        { u with status := WQ.TStatus.pending,
                 assignedTo := if u.originallyBroadcast then none else u.assignedTo }
      else u) : WQ.WTask).id = u.id := by
    intro u
    by_cases hu : WQ.staleClaimed s staleBefore u = true <;> simp [hu]
  have hg2 : ∀ u : WQ.WTask,
      ((if WQ.pollSelect B u then
        { u with status := WQ.TStatus.claimed, assignedTo := some B }
      else u) : WQ.WTask).id = u.id := by
    intro u
    by_cases hu : WQ.pollSelect B u = true <;> simp [hu]
  have h1 : WQ.taskOf (WQ.reassignStale staleBefore s) tid =
      some { t with status := WQ.TStatus.pending,
                    assignedTo := if t.originallyBroadcast then none
                                  else t.assignedTo } := by
    simp only [WQ.taskOf, WQ.reassignStale]
    rw [WQ.find?_map_wtask _ hg1 s.tasks tid]
    rw [show s.tasks.find? (fun u => u.id == tid) = some t from ht]
    simp [hstale]
  refine ⟨h1, ?_⟩
  intro hb
  have h1b : WQ.taskOf (WQ.reassignStale staleBefore s) tid =
      some { t with status := WQ.TStatus.pending, assignedTo := none } := by
    rw [h1]
    simp [hb]
  have hsel : WQ.pollSelect B { t with status := WQ.TStatus.pending, assignedTo := none }
      = true := by
    simp [WQ.pollSelect]
  have hmem1 : ({ t with status := WQ.TStatus.pending, assignedTo := none } : WQ.WTask)
      ∈ (WQ.reassignStale staleBefore s).tasks := by
    simp only [WQ.reassignStale]
    refine List.mem_map.mpr ⟨t, hmem, ?_⟩
    simp [hstale, hb]
  have h2 : tid ∈ (WQ.pollAndClaim B (WQ.reassignStale staleBefore s)).2 := by
    simp only [WQ.pollAndClaim]
    refine List.mem_map.mpr
      ⟨{ t with status := WQ.TStatus.pending, assignedTo := none }, ?_, ?_⟩
    · exact List.mem_filter.mpr ⟨hmem1, hsel⟩
    · exact htid
  have h3 : WQ.taskOf (WQ.pollAndClaim B (WQ.reassignStale staleBefore s)).1 tid =
      some { t with status := WQ.TStatus.claimed, assignedTo := some B } := by
    simp only [WQ.taskOf, WQ.pollAndClaim]
    rw [WQ.find?_map_wtask _ hg2 (WQ.reassignStale staleBefore s).tasks tid]
    rw [show (WQ.reassignStale staleBefore s).tasks.find? (fun u => u.id == tid) =
      some { t with status := WQ.TStatus.pending, assignedTo := none } from h1b]
    simp [hsel]
  exact ⟨h2, h3⟩

def wqAgentA : WQ.WAgent := { name := nmA, lastSeenAt := 0 }

def wqTask1 : WQ.WTask :=
  { id := 1, assignedTo := some nmA, originallyBroadcast := true,
    status := WQ.TStatus.claimed }

def wqS : WQ.State := { agents := [wqAgentA], tasks := [wqTask1] }

theorem c6_reassign_stale_reclaims_witness :
    WQ.taskOf (WQ.reassignStale 5 wqS) 1 =
      some { wqTask1 with status := WQ.TStatus.pending, assignedTo := none } ∧
    1 ∈ (WQ.pollAndClaim nmB (WQ.reassignStale 5 wqS)).2 ∧
    WQ.taskOf (WQ.pollAndClaim nmB (WQ.reassignStale 5 wqS)).1 1 =
      some { wqTask1 with status := WQ.TStatus.claimed, assignedTo := some nmB } :=
  ⟨(c6_reassign_stale_reclaims wqS 1 wqTask1 nmA nmB 0 5 (by decide) rfl rfl
      (by decide) (by decide)).1,
   ((c6_reassign_stale_reclaims wqS 1 wqTask1 nmA nmB 0 5 (by decide) rfl rfl
      (by decide) (by decide)).2 rfl).1,
   ((c6_reassign_stale_reclaims wqS 1 wqTask1 nmA nmB 0 5 (by decide) rfl rfl
      (by decide) (by decide)).2 rfl).2⟩

end Hive
